import Mathlib

/-
Verification development for the agentic-browser repository.

The Python sources are shallowly embedded as executable Lean definitions:
pure functions become Lean functions, machine integers become Nat/Int, and
fallible code returns Option/Except.  Library calls from the Python standard
library (urllib.parse.urlparse, str methods, difflib.SequenceMatcher,
int()) are modelled from their documented behaviour.  Page/LLM interaction
(Playwright, the completion endpoint) is external and enters the model as
explicit inputs.
-/

/- ===================== Python string helpers ===================== -/

/-- Model of Python str.lower on a list of characters (ASCII case fold,
matching the characters that occur in this code base). -/
def pyLower (l : List Char) : List Char := l.map Char.toLower

/-- Model of Python str.lower on a string. -/
def pyLowerStr (s : String) : String := String.mk (pyLower s.data)

/-- Model of Python str.strip with no argument: drop leading and trailing
whitespace. -/
def pyStrip (l : List Char) : List Char :=
  ((l.dropWhile Char.isWhitespace).reverse.dropWhile Char.isWhitespace).reverse

/-- Model of Python str.strip on a string. -/
def pyStripStr (s : String) : String := String.mk (pyStrip s.data)

/-- Model of the Python substring test `needle in haystack`. -/
def strContains (haystack needle : String) : Bool :=
  (List.range (haystack.data.length + 1)).any
    (fun i => needle.data.isPrefixOf (haystack.data.drop i))

/-- Model of Python str.endswith. -/
def pyEndsWith (s suffix : String) : Bool := suffix.data.isSuffixOf s.data

/-- Model of Python int(str) on a decimal literal: surrounding whitespace,
an optional sign, then decimal digits.  (Underscore group separators are not
modelled; no input in this development uses them.) -/
def digitsToNat (ds : List Char) : Option Nat :=
  if ds ≠ [] ∧ ds.all Char.isDigit then
    some (ds.foldl (fun a c => a * 10 + (c.toNat - 48)) 0)
  else none

/-- Model of Python int(str). -/
def pyStrToInt (s : String) : Option Int :=
  match pyStrip s.data with
  | '+' :: ds => (digitsToNat ds).map Int.ofNat
  | '-' :: ds => (digitsToNat ds).map (fun n => -(n : Int))
  | ds => (digitsToNat ds).map Int.ofNat

/- ===================== urllib.parse.urlparse model ===================== -/

/-- The scheme and netloc components of urllib.parse.urlparse, the only
components this code base reads. -/
structure UrlParts where
  scheme : String
  netloc : String
deriving Repr, DecidableEq

/-- Characters allowed after the first character of a URL scheme
(urllib scheme_chars: ASCII letters, digits, plus, minus, dot). -/
def isSchemeChar (c : Char) : Bool := c.isAlphanum || c = '+' || c = '-' || c = '.'

/-- Split off the scheme as urllib.parse.urlsplit does: a leading colon at a
positive index, an ASCII alphabetic first character, and only scheme
characters before the colon; the scheme is lowercased. -/
def splitScheme (u : List Char) : String × List Char :=
  match u.findIdx? (fun c => c = ':') with
  | some i =>
      if decide (0 < i) && (u.take i).all isSchemeChar &&
          (match u.head? with | some c => c.isAlpha | none => false) then
        (String.mk (pyLower (u.take i)), u.drop (i + 1))
      else ("", u)
  | none => ("", u)

/-- Extract the netloc as urllib.parse.urlsplit does: only when the rest
starts with two slashes, up to the first slash, question mark or hash. -/
def splitNetloc (rest : List Char) : List Char :=
  match rest with
  | '/' :: '/' :: r => r.takeWhile (fun c => ¬ (c = '/' ∨ c = '?' ∨ c = '#'))
  | _ => []

/-- Model of urllib.parse.urlparse restricted to scheme and netloc.  Tab,
carriage-return and newline characters are removed first, as urlsplit does. -/
def urlparse (url : String) : UrlParts :=
  let u := url.data.filter (fun c => ¬ (c = '\t' ∨ c = '\r' ∨ c = '\n'))
  let sr := splitScheme u
  { scheme := sr.1, netloc := String.mk (splitNetloc sr.2) }

/- ===================== SecurityEngine (src/security.py) ===================== -/

/-- The SecurityEngine configuration state set in SecurityEngine.__init__:
the trusted-domain whitelist, the enabled flag, and risk_threshold (50). -/
structure SecurityEngine where
  whitelist : List String
  enabled : Bool
  risk_threshold : Nat
deriving Repr, DecidableEq

/-- SecurityEngine.DEFAULT_WHITELIST. -/
def DEFAULT_WHITELIST : List String :=
  ["google.com", "wikipedia.org", "github.com", "amazon.com",
   "stackoverflow.com", "python.org", "mozilla.org", "microsoft.com"]

/-- SecurityEngine.DANGEROUS_EXTENSIONS. -/
def DANGEROUS_EXTENSIONS : List String :=
  [".exe", ".bat", ".cmd", ".com", ".scr", ".vbs", ".js", ".jar", ".msi",
   ".app", ".deb", ".rpm", ".dmg", ".pkg"]

/-- SecurityEngine.MODERATE_RISK_EXTENSIONS. -/
def MODERATE_RISK_EXTENSIONS : List String :=
  [".zip", ".rar", ".7z", ".tar", ".gz", ".sh", ".py", ".rb", ".pl"]

/-- A SecurityEngine with the constructor defaults (default whitelist,
enabled, risk_threshold 50). -/
def defaultEngine : SecurityEngine :=
  { whitelist := DEFAULT_WHITELIST, enabled := true, risk_threshold := 50 }

/-- SecurityEngine.is_whitelisted: lowercase the netloc, strip a leading
www., then accept an exact match or a dot-separated suffix match against any
whitelist entry.  A ValueError from urlsplit (mismatched IPv6 brackets in
the netloc) is caught in the source and yields False; that is the first
branch here. -/
def is_whitelisted (se : SecurityEngine) (url : String) : Bool :=
  let nl := (urlparse url).netloc.data
  if (nl.contains '[') ≠ (nl.contains ']') then false
  else
    let domain := pyLower nl
    let domain := if ("www.".data.isPrefixOf domain) then domain.drop 4 else domain
    se.whitelist.any (fun trusted =>
      (domain == trusted.data) || (('.' :: trusted.data).isSuffixOf domain))

/-- The element-info dictionary consulted by calculate_risk; field typeAttr
models the Python key named type (a Lean keyword).  Absent keys default to
the empty string, as the source's .get calls do. -/
structure ElementInfo where
  tag : String
  typeAttr : String
  text : String
  href : String
deriving Repr, DecidableEq

/-- The fields of the action dictionary read by calculate_risk; absent keys
default to the empty string via .get. -/
structure RiskAction where
  action : String
  value : String
deriving Repr, DecidableEq

/-- The final lines of calculate_risk: cap the accumulated risk at 100 and
join the accumulated reasons with a semicolon. -/
def capRisk (r : Nat × List String) : Nat × String :=
  (min r.1 100,
   if r.2 = [] then "No specific risk factors" else String.intercalate "; " r.2)

/-- SecurityEngine.calculate_risk, embedded branch for branch from
src/security.py lines 180-295. -/
def calculate_risk (se : SecurityEngine) (action : RiskAction) (target_url : String)
    (element_info : Option ElementInfo) : Nat × String :=
  if ¬ se.enabled then (0, "Security disabled")
  else
    let action_type := pyLowerStr action.action
    let value := action.value
    if action_type = "navigate" then
      if value = "" then (10, "Navigation without URL")
      else
        let r1 : Nat × List String :=
          if is_whitelisted se value then (0, ["Whitelisted domain"])
          else (50, ["Unknown domain (requires approval)"])
        let scheme := (urlparse value).scheme
        let r2 : Nat × List String :=
          if ¬ (scheme = "http" ∨ scheme = "https") then
            (r1.1 + 30, r1.2 ++ ["Suspicious protocol: " ++ scheme])
          else r1
        capRisk r2
    else if action_type = "type" then
      let r1 : Nat × List String :=
        match element_info with
        | some info =>
            let elem_type := pyLowerStr info.typeAttr
            if strContains elem_type "password" then
              (100, ["Typing into PASSWORD field (CRITICAL)"])
            else if strContains elem_type "email" ∨ strContains elem_type "user" then
              (40, ["Typing into email/username field"])
            else (0, [])
        | none => (0, [])
      let r2 : Nat × List String :=
        if value.length > 100 then (r1.1 + 20, r1.2 ++ ["Unusually long input"])
        else r1
      capRisk r2
    else if action_type = "click" then
      match element_info with
      | some info =>
          let elem_text := pyLowerStr info.text
          let elem_tag := pyLowerStr info.tag
          let r1 : Nat × List String :=
            if strContains elem_text "download" ∨ elem_tag = "a" then
              let href := info.href
              if DANGEROUS_EXTENSIONS.any (fun ext => pyEndsWith href ext) then
                (80, ["Downloading executable file"])
              else if MODERATE_RISK_EXTENSIONS.any (fun ext => pyEndsWith href ext) then
                (40, ["Downloading archive file"])
              else if href ≠ "" then (20, ["Clicking download link"])
              else (0, [])
            else (0, [])
          let r2 : Nat × List String :=
            if ["submit", "confirm", "pay", "buy", "purchase"].any
                (fun k => strContains elem_text k) then
              if ¬ is_whitelisted se target_url then
                (r1.1 + 60, r1.2 ++ ["Submit button on non-whitelisted site"])
              else (r1.1 + 10, r1.2 ++ ["Submit button (whitelisted site)"])
            else r1
          capRisk r2
      | none => capRisk (0, [])
    else if action_type = "scroll" ∨ action_type = "wait" then
      capRisk (0, ["Safe action"])
    else
      capRisk (30, ["Unknown action type: " ++ action_type])

/-- SecurityEngine.requires_approval (src/security.py lines 297-307). -/
def requires_approval (se : SecurityEngine) (risk_score : Nat) : Bool :=
  risk_score > se.risk_threshold

/- ===================== Iron Gate (src/agent.py run) ===================== -/

/-- The three outcomes of the control loop's security gate. -/
inductive GateDecision where
  | block
  | requireApproval
  | autoApprove
deriving Repr, DecidableEq

/-- The Iron Gate branching of AgenticBrowser.run (src/agent.py lines
499-540): risk at least 90 blocks, at least 40 requires approval, otherwise
auto-approve. -/
def ironGate (risk : Nat) : GateDecision :=
  if risk ≥ 90 then .block
  else if risk ≥ 40 then .requireApproval
  else .autoApprove

/-- AgenticBrowser._request_user_approval: the interactive answer is
stripped and lowercased and must be y or yes; when no interactive answer is
available (EOFError) the action is denied. -/
def approvalGranted (answer : Option String) : Bool :=
  match answer with
  | none => false
  | some r =>
      let t := pyLowerStr (pyStripStr r)
      t = "y" ∨ t = "yes"

/-- Whether the gated action is executed, as a function of the risk score
and the optional interactive answer: blocked actions never run, approval-
required actions run only on a granted approval, low-risk actions always
run. -/
def ironGateAllows (risk : Nat) (answer : Option String) : Bool :=
  match ironGate risk with
  | .block => false
  | .requireApproval => approvalGranted answer
  | .autoApprove => true

/- ===================== Step history (src/agent.py run) ===================== -/

/-- StepRecord dataclass from src/agent.py. -/
structure StepRecord where
  step_num : Nat
  action : String
  result : String
deriving Repr, DecidableEq

/-- The five places in AgenticBrowser.run that append to self.history. -/
inductive StepKind where
  | doneStep       -- goal achieved, then break
  | blockedStep    -- Iron Gate block, then continue
  | deniedStep     -- approval denied, then continue
  | deceptiveStep  -- visual verification refused the click, then continue
  | executedStep   -- the action was dispatched to execute_safe_action
deriving Repr, DecidableEq

/-- One history update of AgenticBrowser.run.  Every path appends the new
record at the end; only the executed path then reaches the trim
`if len(self.history) > 5: self.history = self.history[-5:]` — the done,
blocked, denied and deceptive paths break or continue before it. -/
def historyUpdate (k : StepKind) (h : List StepRecord) (r : StepRecord) :
    List StepRecord :=
  match k with
  | .executedStep =>
      let h2 := h ++ [r]
      if h2.length > 5 then h2.drop (h2.length - 5) else h2
  | _ => h ++ [r]

/- ===================== Verify phase (control loop) ===================== -/

/-- A page fingerprint: the page URL and the content hash produced by
BrowserIntelliSense.get_page_hash (src/browser_sense.py lines 470-477); the
md5 digest itself is environment input and enters the model as an opaque
string. -/
structure PageFingerprint where
  url : String
  contentHash : String
deriving Repr, DecidableEq

/-- The two verify outcomes recorded after an executed action. -/
inductive VerifyTag where
  | noEffect
  | changedSuccess
deriving Repr, DecidableEq

/-- Modelled from the spec: the Verify phase of the control loop (spec
section 4.5), absent from src/ — only its collaborator
BrowserIntelliSense.get_page_hash and the unused _last_content_hash field
are present there.  After the settle wait the fingerprint is recomputed; if
neither the URL nor the content hash changed the step is tagged NO_EFFECT,
and if either differs it is recorded as a content/URL-change success. -/
def verifyStep (pre post : PageFingerprint) : VerifyTag :=
  if pre.url = post.url ∧ pre.contentHash = post.contentHash then .noEffect
  else .changedSuccess

/- ===================== BrowserIntelliSense.execute_action ===================== -/

/-- A dynamically typed value as read from the action dictionary
(target_id and id keys may hold a string, an integer, or be absent). -/
inductive PyVal where
  | pstr (s : String)
  | pint (n : Int)
  | pnone
deriving Repr, DecidableEq

/-- Python truthiness for the values PyVal can hold. -/
def pyTruthy : PyVal → Bool
  | .pstr s => s ≠ ""
  | .pint n => n ≠ 0
  | .pnone => false

/-- Python `x or y` restricted to PyVal. -/
def pyOrVal (x y : PyVal) : PyVal := if pyTruthy x then x else y

/-- Python `x or y` where x is an optional string (dict.get with no
default) and y a string. -/
def pyOrStr (x : Option String) (y : String) : String :=
  match x with
  | some s => if s = "" then y else s
  | none => y

/-- Python int() applied to a PyVal; none models the ValueError/TypeError
branch of the source's try/except. -/
def pyValToInt : PyVal → Option Int
  | .pint n => some n
  | .pstr s => pyStrToInt s
  | .pnone => none

/-- Python str() of a PyVal, used in the invalid-target error message. -/
def pyValStr : PyVal → String
  | .pstr s => s
  | .pint n => toString n
  | .pnone => "None"

/-- The fields of the action dictionary read by
BrowserIntelliSense.execute_action.  Keys target_id and id are dynamically
typed; url and text have no default (dict.get with one argument) while
value defaults to the empty string. -/
structure BActionDict where
  action : String
  target_id : PyVal
  idField : PyVal
  url : Option String
  text : Option String
  value : String
deriving Repr, DecidableEq

/-- The element primitives BrowserIntelliSense.execute_action can dispatch
to; their own success is decided by the live page and is out of scope. -/
inductive BrowserPrimitive where
  | navigateTo (url : String)
  | scrollBy (amount : Int)
  | smartWait
  | clickElem (id : Int)
  | fillElem (id : Int) (text : String)
  | pressEnterElem (id : Int)
deriving Repr, DecidableEq

/-- Outcome of the execute_action dispatcher: either a (success, message)
pair returned without touching any element, or a dispatch to a page
primitive. -/
inductive ExecOutcome where
  | immediate (success : Bool) (message : String)
  | dispatch (p : BrowserPrimitive)
deriving Repr, DecidableEq

/-- BrowserIntelliSense.execute_action (src/browser_sense.py lines
310-378): non-element actions are dispatched without a target; element
actions resolve target_id (falling back to id by Python `or`), convert it
to an integer, and look it up in the element map, failing with a structured
error message at each stage.  (Python wraps the invalid id in single
quotes; the quotes are omitted here.) -/
def execute_action (a : BActionDict) (element_map : List Int) : ExecOutcome :=
  let action_type := pyLowerStr a.action
  if action_type = "navigate" then .dispatch (.navigateTo (pyOrStr a.url a.value))
  else if action_type = "scroll" ∨ action_type = "scroll_down" then
    .dispatch (.scrollBy 500)
  else if action_type = "scroll_up" then .dispatch (.scrollBy (-500))
  else if action_type = "wait" then .dispatch .smartWait
  else if action_type = "done" then .immediate true "GOAL_COMPLETE"
  else
    let target_id := pyOrVal a.target_id a.idField
    if target_id = .pnone then .immediate false "ERROR: No target_id provided"
    else
      match pyValToInt target_id with
      | none => .immediate false ("ERROR: Invalid target_id " ++ pyValStr target_id)
      | some n =>
          if ¬ element_map.contains n then
            .immediate false ("ERROR: Element #" ++ toString n ++ " not found")
          else if action_type = "click" then .dispatch (.clickElem n)
          else if action_type = "type" then
            .dispatch (.fillElem n (pyOrStr a.text a.value))
          else if action_type = "press_enter" then .dispatch (.pressEnterElem n)
          else .immediate false ("ERROR: Unknown action " ++ action_type)

/- ===================== DOMDistiller (src/distiller.py) ===================== -/

/-- One element dictionary produced by the distiller's extraction script;
the script always populates id, type, text and interactive. -/
structure DistElem where
  idOpt : Option Int
  typeAttr : String
  text : String
  interactive : Bool
deriving Repr, DecidableEq

/-- Python str.capitalize: first character uppercased, the rest
lowercased. -/
def pyCapitalize (s : String) : String :=
  match s.data with
  | [] => ""
  | c :: rest => String.mk (c.toUpper :: pyLower rest)

/-- Python str.upper. -/
def pyUpperStr (s : String) : String := String.mk (s.data.map Char.toUpper)

/-- Python repr of the optional id as interpolated by the f-string (None
prints as None). -/
def showIdOpt : Option Int → String
  | some n => toString n
  | none => "None"

/-- DOMDistiller._format_elements (src/distiller.py lines 121-167). -/
def format_elements (elements : List DistElem) : String :=
  let interactive := elements.filter (fun e => e.interactive)
  let content := elements.filter (fun e => ¬ e.interactive)
  let introLines : List String := ["=== PAGE ELEMENTS ===\n"]
  let interLines : List String :=
    if interactive ≠ [] then
      ["--- Interactive Elements ---"] ++
      ((interactive.take 100).map (fun elem =>
        let elemType := pyCapitalize elem.typeAttr
        let text0 := if elem.text = "" then "(no text)" else elem.text
        let text := if text0.length > 60 then
            String.mk (text0.data.take 57) ++ "..." else text0
        "[" ++ elemType ++ "] \"" ++ text ++ "\" (ID: " ++ showIdOpt elem.idOpt ++ ")")) ++
      [""]
    else []
  let contentLines : List String :=
    if content ≠ [] then
      ["--- Page Content ---"] ++
      ((content.take 50).map (fun elem =>
        let elemType := pyUpperStr elem.typeAttr
        let text := if elem.text.length > 80 then
            String.mk (elem.text.data.take 77) ++ "..." else elem.text
        elemType ++ ": " ++ text)) ++
      [""]
    else []
  let totalLine : List String :=
    ["Total: " ++ toString interactive.length ++ " interactive, " ++
     toString content.length ++ " content elements"]
  String.intercalate "\n" (introLines ++ interLines ++ contentLines ++ totalLine)

/-- DOMDistiller.get_simplified_state (src/distiller.py lines 90-119).  The
page's script evaluation is external input: it either throws (Except.error
with the exception text) or returns the extracted element list.  The source
wraps everything in try/except and returns an error string on both failure
paths, so the function is total and never raises to its caller. -/
def get_simplified_state (scriptResult : Except String (List DistElem)) : String :=
  match scriptResult with
  | .error e => "Error: " ++ e
  | .ok elements =>
      if elements = [] then "Error: No elements extracted"
      else format_elements elements

/- ===================== difflib.SequenceMatcher model ===================== -/

/-
SequenceMatcher(None, a, b).ratio() is modelled from its documented
behaviour: the popular-element autojunk filter on b (active only when b has
at least 200 elements), the longest matching block containing no junk
(ties resolved towards the earliest start in a, then in b) extended on both
sides by matching junk elements, the recursive decomposition into matching
blocks left and right of that block, and finally ratio = 2*M/T where M is
the total size of the matching blocks and T the total length (1 when T is
0).
-/

/-- The autojunk rule: when b has at least 200 elements, every element
occurring in more than one percent of b (count > b.length / 100 + 1) is
junk. -/
def popularJunk (b : List Char) : List Char :=
  if b.length ≥ 200 then b.filter (fun c => b.count c > b.length / 100 + 1)
  else []

/-- Whether (i, j, k) is a matching block of a and b that contains no junk
element of b. -/
def blockOK (a b junk : List Char) (i j k : Nat) : Bool :=
  decide (i + k ≤ a.length ∧ j + k ≤ b.length ∧
          (a.drop i).take k = (b.drop j).take k ∧
          ∀ c ∈ (b.drop j).take k, c ∉ junk)

/-- All matching-block candidates, enumerated with ascending start in a,
then ascending start in b. -/
def candBlocks (a b junk : List Char) : List (Nat × Nat × Nat) :=
  ((List.range (a.length + 1)).flatMap (fun i =>
    (List.range (b.length + 1)).flatMap (fun j =>
      (List.range (min (a.length - i) (b.length - j) + 1)).map
        (fun k => (i, j, k))))).filter
    (fun c => blockOK a b junk c.1 c.2.1 c.2.2)

/-- Keep the strictly longer block; on ties the earlier candidate
(earliest start in a, then in b, by enumeration order) is kept. -/
def pickLonger (best c : Nat × Nat × Nat) : Nat × Nat × Nat :=
  if best.2.2 < c.2.2 then c else best

/-- The longest junk-free matching block (earliest in a, then in b). -/
def bestBlock (a b junk : List Char) : Nat × Nat × Nat :=
  (candBlocks a b junk).foldl pickLonger (0, 0, 0)

/-- Extend a matching block leftwards over matching junk elements. -/
def extendLeft (a b junk : List Char) : Nat → Nat → Nat → Nat × Nat × Nat
  | 0, j, k => (0, j, k)
  | i + 1, 0, k => (i + 1, 0, k)
  | i + 1, j + 1, k =>
      if (match a.get? i, b.get? j with
          | some ca, some cb => junk.contains cb && (ca == cb)
          | _, _ => false) then extendLeft a b junk i j (k + 1)
      else (i + 1, j + 1, k)

/-- Extend a matching block rightwards over matching junk elements; the
fuel is an upper bound on the number of extension steps (a.length in every
use). -/
def extendRight (a b junk : List Char) : Nat → Nat × Nat × Nat → Nat × Nat × Nat
  | 0, t => t
  | fuel + 1, (i, j, k) =>
      if (match a.get? (i + k), b.get? (j + k) with
          | some ca, some cb => junk.contains cb && (ca == cb)
          | _, _ => false) then extendRight a b junk fuel (i, j, k + 1)
      else (i, j, k)

/-- find_longest_match over whole sequences: the longest junk-free matching
block, extended over matching junk on both sides. -/
def flm (a b junk : List Char) : Nat × Nat × Nat :=
  let t0 := bestBlock a b junk
  let t1 := extendLeft a b junk t0.1 t0.2.1 t0.2.2
  extendRight a b junk a.length t1

/-- The block found by blockOK-filtered enumeration fits inside a and b. -/
theorem candBlocks_valid {a b junk : List Char} {c : Nat × Nat × Nat}
    (hc : c ∈ candBlocks a b junk) :
    c.1 + c.2.2 ≤ a.length ∧ c.2.1 + c.2.2 ≤ b.length := by
  have hok := (List.mem_filter.mp hc).2
  have hp := of_decide_eq_true hok
  exact ⟨hp.1, hp.2.1⟩

/-- A fold with pickLonger lands on the initial value or on a list
element. -/
theorem foldl_pickLonger_mem (l : List (Nat × Nat × Nat))
    (init : Nat × Nat × Nat) :
    l.foldl pickLonger init = init ∨ l.foldl pickLonger init ∈ l := by
  induction l generalizing init with
  | nil => left; rfl
  | cons x t ih =>
      simp only [List.foldl_cons]
      rcases ih (pickLonger init x) with h | h
      · rw [h]
        unfold pickLonger
        split
        · right; exact List.mem_cons_self x t
        · left; rfl
      · right; exact List.mem_cons_of_mem x h

/-- The fold never shrinks the block length below the initial one. -/
theorem foldl_pickLonger_le_init (l : List (Nat × Nat × Nat))
    (init : Nat × Nat × Nat) :
    init.2.2 ≤ (l.foldl pickLonger init).2.2 := by
  induction l generalizing init with
  | nil => exact Nat.le_refl _
  | cons x t ih =>
      simp only [List.foldl_cons]
      have h1 : init.2.2 ≤ (pickLonger init x).2.2 := by
        unfold pickLonger; split <;> omega
      exact Nat.le_trans h1 (ih (pickLonger init x))

/-- The fold result is at least as long as every candidate. -/
theorem foldl_pickLonger_ge (l : List (Nat × Nat × Nat))
    (init : Nat × Nat × Nat) (c : Nat × Nat × Nat) (hc : c ∈ l) :
    c.2.2 ≤ (l.foldl pickLonger init).2.2 := by
  induction l generalizing init with
  | nil => cases hc
  | cons x t ih =>
      simp only [List.foldl_cons]
      rcases List.mem_cons.mp hc with rfl | h
      · have h1 : c.2.2 ≤ (pickLonger init c).2.2 := by
          unfold pickLonger; split <;> omega
        exact Nat.le_trans h1 (foldl_pickLonger_le_init t (pickLonger init c))
      · exact ih _ h

/-- With an empty junk set the left extension is the identity. -/
theorem extendLeft_nil (a b : List Char) (i j k : Nat) :
    extendLeft a b [] i j k = (i, j, k) := by
  cases i with
  | zero => rfl
  | succ i0 =>
      cases j with
      | zero => rfl
      | succ j0 =>
          rw [extendLeft]
          have hm : (match a.get? i0, b.get? j0 with
              | some ca, some cb => List.contains [] cb && (ca == cb)
              | _, _ => false) = false := by
            cases a.get? i0 <;> cases b.get? j0 <;> rfl
          rw [hm]
          simp

/-- With an empty junk set the right extension is the identity. -/
theorem extendRight_nil (a b : List Char) (fuel : Nat) (t : Nat × Nat × Nat) :
    extendRight a b [] fuel t = t := by
  cases fuel with
  | zero => rfl
  | succ f =>
      obtain ⟨i, j, k⟩ := t
      rw [extendRight]
      have hm : (match a.get? (i + k), b.get? (j + k) with
          | some ca, some cb => List.contains [] cb && (ca == cb)
          | _, _ => false) = false := by
        cases a.get? (i + k) <;> cases b.get? (j + k) <;> rfl
      rw [hm]
      simp

/-- Left extension keeps the block inside a and b. -/
theorem extendLeft_valid (a b junk : List Char) (i j k : Nat)
    (ha : i + k ≤ a.length) (hb : j + k ≤ b.length) :
    (extendLeft a b junk i j k).1 + (extendLeft a b junk i j k).2.2 ≤ a.length ∧
    (extendLeft a b junk i j k).2.1 + (extendLeft a b junk i j k).2.2 ≤ b.length := by
  induction i generalizing j k with
  | zero => exact ⟨ha, hb⟩
  | succ i0 ih =>
      cases j with
      | zero => exact ⟨ha, hb⟩
      | succ j0 =>
          rw [extendLeft]
          split
          · exact ih j0 (k + 1) (by omega) (by omega)
          · exact ⟨ha, hb⟩

/-- Right extension keeps the block inside a and b. -/
theorem extendRight_valid (a b junk : List Char) (fuel : Nat)
    (t : Nat × Nat × Nat)
    (ha : t.1 + t.2.2 ≤ a.length) (hb : t.2.1 + t.2.2 ≤ b.length) :
    (extendRight a b junk fuel t).1 + (extendRight a b junk fuel t).2.2 ≤ a.length ∧
    (extendRight a b junk fuel t).2.1 + (extendRight a b junk fuel t).2.2 ≤ b.length := by
  induction fuel generalizing t with
  | zero => exact ⟨ha, hb⟩
  | succ f ih =>
      obtain ⟨i, j, k⟩ := t
      rw [extendRight]
      split
      case isTrue hcond =>
        cases hga : a.get? (i + k) with
        | none => rw [hga] at hcond; cases hgb : b.get? (j + k) <;> simp [hgb] at hcond
        | some ca =>
            cases hgb : b.get? (j + k) with
            | none => rw [hga, hgb] at hcond; simp at hcond
            | some cb =>
                have hia : i + k < a.length := by
                  by_contra hge
                  have : a.get? (i + k) = none := List.get?_eq_none.mpr (by omega)
                  rw [this] at hga; cases hga
                have hjb : j + k < b.length := by
                  by_contra hge
                  have : b.get? (j + k) = none := List.get?_eq_none.mpr (by omega)
                  rw [this] at hgb; cases hgb
                exact ih (i, j, k + 1) (by simpa using by omega) (by simpa using by omega)
      case isFalse => exact ⟨ha, hb⟩

/-- The block returned by find_longest_match fits inside a and b. -/
theorem flm_valid (a b junk : List Char) :
    (flm a b junk).1 + (flm a b junk).2.2 ≤ a.length ∧
    (flm a b junk).2.1 + (flm a b junk).2.2 ≤ b.length := by
  have h0 : (bestBlock a b junk).1 + (bestBlock a b junk).2.2 ≤ a.length ∧
      (bestBlock a b junk).2.1 + (bestBlock a b junk).2.2 ≤ b.length := by
    rcases foldl_pickLonger_mem (candBlocks a b junk) (0, 0, 0) with h | h
    · unfold bestBlock; rw [h]; exact ⟨Nat.zero_le _, Nat.zero_le _⟩
    · exact candBlocks_valid h
  have h1 := extendLeft_valid a b junk (bestBlock a b junk).1
    (bestBlock a b junk).2.1 (bestBlock a b junk).2.2 h0.1 h0.2
  exact extendRight_valid a b junk a.length _ h1.1 h1.2

/-- Total size of all matching blocks: the longest (junk-extended) block
plus, recursively, the matches strictly left and strictly right of it. -/
def matchCount (a b junk : List Char) : Nat :=
  if h : (flm a b junk).2.2 = 0 then 0
  else
    have hv := flm_valid a b junk
    matchCount (a.take (flm a b junk).1) (b.take (flm a b junk).2.1) junk +
    (flm a b junk).2.2 +
    matchCount (a.drop ((flm a b junk).1 + (flm a b junk).2.2))
      (b.drop ((flm a b junk).2.1 + (flm a b junk).2.2)) junk
termination_by a.length
decreasing_by
  · simp only [List.length_take]; omega
  · simp only [List.length_drop]; omega

/-- SequenceMatcher ratio: 2*M/T, and 1 when both sequences are empty. -/
def similarityScore (a b : List Char) : ℚ :=
  if a.length + b.length = 0 then 1
  else (2 * (matchCount a b (popularJunk b) : ℚ)) /
    ((a.length : ℚ) + (b.length : ℚ))

/-- SecurityEngine.detect_deceptive_ui (src/security.py lines 130-178).
The percentage figures the source interpolates into the reason strings are
omitted.  The threshold argument is 0.5 by default in the source; every
caller in the repository uses the default. -/
def detect_deceptive_ui (se : SecurityEngine) (visual_text : Option String)
    (dom_text : String) (threshold : ℚ) : Bool × String :=
  if ¬ se.enabled then (true, "Security checks disabled")
  else
    match visual_text with
    | none => (true, "Visual verification not available")
    | some vt =>
        let v := pyStrip (pyLower vt.data)
        let d := pyStrip (pyLower dom_text.data)
        if v = [] ∨ d = [] then (true, "Insufficient data for comparison")
        else if similarityScore v d < threshold then
          (false, "Visual-Code Mismatch")
        else (true, "Visual-DOM match verified")

/-- The default threshold of detect_deceptive_ui. -/
def defaultThreshold : ℚ := 1 / 2

/-- The pre-click visual verification of AgenticBrowser.run (src/agent.py
lines 545-552): both arguments are read from the same element_info text
field. -/
def clickVisualCheck (se : SecurityEngine) (element_info : ElementInfo) :
    Bool × String :=
  let visual_text := element_info.text
  let dom_text := element_info.text
  detect_deceptive_ui se (some visual_text) dom_text defaultThreshold

/- ===================== Action Parser (modelled from the spec) ===================== -/

/-
The tolerant action extractor belongs to the most mature agent variant of
the repository, which is not under src/: src/test_comprehensive.py calls
its methods (agent._extract_json, agent._add_to_history, agent.som) and
imports its ActionRecord type, none of which exist in src/agent.py.  The
definitions below therefore model the Action Parser from spec section 4.3.
-/

/-- A JSON value; numbers keep their validated lexeme. -/
inductive Json where
  | jnull
  | jbool (b : Bool)
  | jnum (raw : String)
  | jstr (s : String)
  | jarr (xs : List Json)
  | jobj (fields : List (String × Json))

/-- Skip JSON whitespace. -/
def skipWs (l : List Char) : List Char :=
  l.dropWhile (fun c => c = ' ' ∨ c = '\t' ∨ c = '\n' ∨ c = '\r')

/-- Value of one hexadecimal digit. -/
def hexVal (c : Char) : Option Nat :=
  if c.isDigit then some (c.toNat - 48)
  else if 'a' ≤ c ∧ c ≤ 'f' then some (c.toNat - 87)
  else if 'A' ≤ c ∧ c ≤ 'F' then some (c.toNat - 55)
  else none

/-- Single-character JSON escapes. -/
def escChar (e : Char) : Option Char :=
  if e = '"' then some '"'
  else if e = '\\' then some '\\'
  else if e = '/' then some '/'
  else if e = 'b' then some (Char.ofNat 8)
  else if e = 'f' then some (Char.ofNat 12)
  else if e = 'n' then some '\n'
  else if e = 'r' then some '\r'
  else if e = 't' then some '\t'
  else none

/-- Parse the body of a JSON string after the opening quote, returning the
decoded characters and the remainder after the closing quote.  Unpaired
surrogate escapes are rejected; surrogate-pair combination is not
modelled.  The fuel is an upper bound on the remaining input length. -/
def parseStringBody : Nat → List Char → Option (List Char × List Char)
  | 0, _ => none
  | _, [] => none
  | fuel + 1, c :: rest =>
      if c = '"' then some ([], rest)
      else if c = '\\' then
        match rest with
        | [] => none
        | e :: rest2 =>
            if e = 'u' then
              match rest2 with
              | h1 :: h2 :: h3 :: h4 :: rest3 =>
                  (match hexVal h1, hexVal h2, hexVal h3, hexVal h4 with
                   | some x1, some x2, some x3, some x4 =>
                       let code := ((x1 * 16 + x2) * 16 + x3) * 16 + x4
                       if 0xd800 ≤ code ∧ code < 0xe000 then none
                       else (parseStringBody fuel rest3).map
                         (fun p => (Char.ofNat code :: p.1, p.2))
                   | _, _, _, _ => none)
              | _ => none
            else
              match escChar e with
              | some ce => (parseStringBody fuel rest2).map
                  (fun p => (ce :: p.1, p.2))
              | none => none
      else if c.toNat < 32 then none
      else (parseStringBody fuel rest).map (fun p => (c :: p.1, p.2))

/-- Parse a JSON number (sign, integer part without leading zeros,
optional fraction and exponent), returning its lexeme and the rest. -/
def parseNumber (l : List Char) : Option (Json × List Char) :=
  let signPart : List Char × List Char :=
    match l with
    | '-' :: r => (['-'], r)
    | _ => ([], l)
  let intPart := signPart.2.takeWhile Char.isDigit
  let rest1 := signPart.2.dropWhile Char.isDigit
  if intPart = [] then none
  else if intPart.length > 1 ∧ intPart.head? = some '0' then none
  else
    let fracRes : Option (List Char × List Char) :=
      match rest1 with
      | '.' :: r2 =>
          let fr := r2.takeWhile Char.isDigit
          if fr = [] then none else some ('.' :: fr, r2.dropWhile Char.isDigit)
      | _ => some ([], rest1)
    match fracRes with
    | none => none
    | some (fracPart, rest2) =>
        let expRes : Option (List Char × List Char) :=
          match rest2 with
          | e :: r3 =>
              if e = 'e' ∨ e = 'E' then
                let signExp : List Char × List Char :=
                  match r3 with
                  | s :: r4 => if s = '+' ∨ s = '-' then ([s], r4) else ([], r3)
                  | [] => ([], r3)
                let ed := signExp.2.takeWhile Char.isDigit
                if ed = [] then none
                else some (e :: (signExp.1 ++ ed), signExp.2.dropWhile Char.isDigit)
              else some ([], rest2)
          | [] => some ([], rest2)
        match expRes with
        | none => none
        | some (expPart, rest3) =>
            some (Json.jnum (String.mk (signPart.1 ++ intPart ++ fracPart ++ expPart)),
                  rest3)

mutual

/-- Parse one JSON value; the fuel bounds the nesting depth. -/
def parseValue : Nat → List Char → Option (Json × List Char)
  | 0, _ => none
  | fuel + 1, l =>
      match skipWs l with
      | '{' :: rest =>
          (match skipWs rest with
           | '}' :: r2 => some (Json.jobj [], r2)
           | _ => (parseMembers fuel rest).map (fun p => (Json.jobj p.1, p.2)))
      | '[' :: rest =>
          (match skipWs rest with
           | ']' :: r2 => some (Json.jarr [], r2)
           | _ => (parseItems fuel rest).map (fun p => (Json.jarr p.1, p.2)))
      | '"' :: rest =>
          (parseStringBody (rest.length + 1) rest).map
            (fun p => (Json.jstr (String.mk p.1), p.2))
      | 't' :: 'r' :: 'u' :: 'e' :: rest => some (Json.jbool true, rest)
      | 'f' :: 'a' :: 'l' :: 's' :: 'e' :: rest => some (Json.jbool false, rest)
      | 'n' :: 'u' :: 'l' :: 'l' :: rest => some (Json.jnull, rest)
      | l2 => parseNumber l2

/-- Parse the members of a JSON object after the opening brace (at least
one member), including the closing brace. -/
def parseMembers : Nat → List Char → Option (List (String × Json) × List Char)
  | 0, _ => none
  | fuel + 1, l =>
      match skipWs l with
      | '"' :: rest =>
          (match parseStringBody (rest.length + 1) rest with
           | some (key, r1) =>
               (match skipWs r1 with
                | ':' :: r2 =>
                    (match parseValue fuel r2 with
                     | some (v, r3) =>
                         (match skipWs r3 with
                          | ',' :: r4 =>
                              (parseMembers fuel r4).map
                                (fun p => ((String.mk key, v) :: p.1, p.2))
                          | '}' :: r4 => some ([(String.mk key, v)], r4)
                          | _ => none)
                     | none => none)
                | _ => none)
           | none => none)
      | _ => none

/-- Parse the items of a JSON array after the opening bracket (at least
one item), including the closing bracket. -/
def parseItems : Nat → List Char → Option (List Json × List Char)
  | 0, _ => none
  | fuel + 1, l =>
      match parseValue fuel l with
      | some (v, r1) =>
          (match skipWs r1 with
           | ',' :: r2 => (parseItems fuel r2).map (fun p => (v :: p.1, p.2))
           | ']' :: r2 => some ([v], r2)
           | _ => none)
      | none => none

end

/-- Parse an entire character sequence as a single JSON object with nothing
but whitespace around it. -/
def parseObjectWhole (l : List Char) : Option (List (String × Json)) :=
  if (skipWs l).head? = some '{' then
    (match (match skipWs (skipWs l).tail with
            | '}' :: r2 => some (([] : List (String × Json)), r2)
            | _ => parseMembers (l.length + 1) (skipWs l).tail) with
     | some (fs, r) => if skipWs r = [] then some fs else none
     | none => none)
  else none

/-- Dictionary lookup on parsed object fields; as in Python, a repeated key
takes its last value. -/
def objGet (fields : List (String × Json)) (key : String) : Option Json :=
  (fields.reverse.find? (fun f => f.1 = key)).map (fun f => f.2)

/-- The closed set of action kinds of the ActionProposal data model (spec
section 3). -/
inductive ActionKind where
  | click
  | typeText
  | pressEnter
  | navigate
  | scrollDown
  | scrollUp
  | waitKind
  | doneKind
deriving Repr, DecidableEq

/-- The ActionProposal record of the spec's data model. -/
structure ActionProposal where
  thought : String
  actionKind : ActionKind
  targetId : Option Int
  value : Option String
deriving DecidableEq

/-- Recognized action strings, as the repository spells them. -/
def kindOfString (s : String) : Option ActionKind :=
  if s = "click" then some .click
  else if s = "type" then some .typeText
  else if s = "press_enter" then some .pressEnter
  else if s = "navigate" then some .navigate
  else if s = "scroll" ∨ s = "scroll_down" then some .scrollDown
  else if s = "scroll_up" then some .scrollUp
  else if s = "wait" then some .waitKind
  else if s = "done" then some .doneKind
  else none

/-- Build an ActionProposal from a parsed object: an unrecognized or
missing action value maps to the safe default wait; the target id accepts
both spellings seen in the repository (targetId in the spec's schema,
target_id in the tests). -/
def toProposal (fs : List (String × Json)) : ActionProposal :=
  let kind := match objGet fs "action" with
    | some (.jstr s) => (kindOfString (pyLowerStr s)).getD .waitKind
    | _ => .waitKind
  let thought := match objGet fs "thought" with
    | some (.jstr s) => s
    | _ => ""
  let tid := match (objGet fs "targetId").orElse (fun _ => objGet fs "target_id") with
    | some (.jnum raw) => pyStrToInt raw
    | some (.jstr s) => pyStrToInt s
    | _ => none
  let value := match (objGet fs "value").orElse (fun _ => objGet fs "url") with
    | some (.jstr s) => some s
    | _ => none
  { thought := thought, actionKind := kind, targetId := tid, value := value }

/-- The fenced-code-block marker (three backticks). -/
def fenceMarker : List Char := [Char.ofNat 96, Char.ofNat 96, Char.ofNat 96]

/-- Everything after the first occurrence of pat. -/
def afterFirstSeq (pat : List Char) : List Char → Option (List Char)
  | [] => none
  | c :: rest =>
      if pat.isPrefixOf (c :: rest) then some ((c :: rest).drop pat.length)
      else afterFirstSeq pat rest

/-- Everything before the first occurrence of pat (the whole input when
pat does not occur). -/
def beforeFirstSeq (pat : List Char) : List Char → List Char
  | [] => []
  | c :: rest =>
      if pat.isPrefixOf (c :: rest) then []
      else c :: beforeFirstSeq pat rest

/-- The content of the first fenced code block: after the first marker
(with a leading json language tag stripped) up to the next marker. -/
def fencedContent (l : List Char) : Option (List Char) :=
  (afterFirstSeq fenceMarker l).map (fun r =>
    let r1 := if ("json".data.isPrefixOf r) then r.drop 4 else r
    beforeFirstSeq fenceMarker r1)

/-- Scan from an opening brace to its matching close, allowing one level
of nesting (depth at most 2); acc accumulates the consumed characters. -/
def takeBalanced : List Char → Nat → List Char → Option (List Char)
  | [], _, _ => none
  | c :: rest, depth, acc =>
      if c = '{' then
        if depth ≥ 2 then none else takeBalanced rest (depth + 1) (acc ++ [c])
      else if c = '}' then
        if depth = 1 then some (acc ++ [c])
        else if depth = 0 then none
        else takeBalanced rest (depth - 1) (acc ++ [c])
      else takeBalanced rest depth (acc ++ [c])

/-- All balanced brace-delimited substrings with at most one level of
nesting, in order of their starting position. -/
def braceCandidates (l : List Char) : List (List Char) :=
  (List.range l.length).filterMap (fun i =>
    if (l.drop i).head? = some '{' then takeBalanced (l.drop i) 0 [] else none)

/-- The substring from the first opening brace to the last closing brace. -/
def sliceFirstLast (l : List Char) : Option (List Char) :=
  if '{' ∈ l ∧ '}' ∈ l then
    let i := l.findIdx (fun c => c = '{')
    let jr := l.reverse.findIdx (fun c => c = '}')
    let j := l.length - 1 - jr
    if i ≤ j then some ((l.take (j + 1)).drop i) else none
  else none

/-- Modelled from the spec: the Action Parser extract(rawText) of spec
section 4.3, implemented in the repository's most mature agent variant
(missing from src/, where only its tests survive in
src/test_comprehensive.py).  Tries in order: (1) the entire trimmed text
as one JSON object; (2) the fenced content when code-fence markers are
present; (3) each balanced brace substring (one nesting level), accepting
the first that parses and contains an action key; (4) the substring from
the first opening to the last closing brace.  Every failure path returns
the tagged FORMAT_ERROR result with no action; the function is total, so
it never throws. -/
def extract (raw : String) : Option ActionProposal × String :=
  let t := pyStrip raw.data
  match parseObjectWhole t with
  | some fs => (some (toProposal fs), "")
  | none =>
      match (fencedContent t).bind parseObjectWhole with
      | some fs => (some (toProposal fs), "")
      | none =>
          match ((braceCandidates t).filterMap (fun c =>
              (parseObjectWhole c).bind (fun fs =>
                if (objGet fs "action").isSome then some fs else none))).head? with
          | some fs => (some (toProposal fs), "")
          | none =>
              match (sliceFirstLast t).bind parseObjectWhole with
              | some fs => (some (toProposal fs), "")
              | none => (none, "FORMAT_ERROR")

/- ===================== Supporting lemmas ===================== -/

theorem pyLower_length (l : List Char) : (pyLower l).length = l.length := by
  simp [pyLower]

theorem pyStrip_length_le (l : List Char) : (pyStrip l).length ≤ l.length := by
  unfold pyStrip
  simp only [List.length_reverse]
  exact Nat.le_trans
    (List.Sublist.length_le (List.dropWhile_sublist _))
    (by simpa using List.Sublist.length_le (List.dropWhile_sublist (l := l) _))

theorem mem_pyStrip {c : Char} {l : List Char} (hc : c ∈ pyStrip l) : c ∈ l := by
  unfold pyStrip at hc
  rw [List.mem_reverse] at hc
  have hc2 : c ∈ (l.dropWhile Char.isWhitespace).reverse :=
    (List.dropWhile_sublist _).subset hc
  rw [List.mem_reverse] at hc2
  exact (List.dropWhile_sublist _).subset hc2

theorem popularJunk_eq_nil (b : List Char) (hb : b.length < 200) :
    popularJunk b = [] := by
  unfold popularJunk
  rw [if_neg (by omega)]

theorem blockOK_self (s : List Char) : blockOK s s [] 0 0 s.length = true := by
  apply decide_eq_true
  exact ⟨by simp, by simp, rfl, fun c _ hc => (List.not_mem_nil c) hc⟩

theorem mem_candBlocks_self (s : List Char) :
    (0, 0, s.length) ∈ candBlocks s s [] := by
  unfold candBlocks
  rw [List.mem_filter]
  refine ⟨?_, blockOK_self s⟩
  rw [List.mem_flatMap]
  refine ⟨0, by simp, ?_⟩
  rw [List.mem_flatMap]
  refine ⟨0, by simp, ?_⟩
  rw [List.mem_map]
  exact ⟨s.length, by simp, rfl⟩

theorem bestBlock_self (s : List Char) : bestBlock s s [] = (0, 0, s.length) := by
  have hge : s.length ≤ (bestBlock s s []).2.2 :=
    foldl_pickLonger_ge (candBlocks s s []) (0, 0, 0) (0, 0, s.length)
      (mem_candBlocks_self s)
  have hv : (bestBlock s s []).1 + (bestBlock s s []).2.2 ≤ s.length ∧
      (bestBlock s s []).2.1 + (bestBlock s s []).2.2 ≤ s.length := by
    rcases foldl_pickLonger_mem (candBlocks s s []) (0, 0, 0) with h | h
    · unfold bestBlock
      rw [h]
      exact ⟨Nat.zero_le _, Nat.zero_le _⟩
    · exact candBlocks_valid h
  have e1 : (bestBlock s s []).1 = 0 := by omega
  have e2 : (bestBlock s s []).2.1 = 0 := by omega
  have e3 : (bestBlock s s []).2.2 = s.length := by omega
  have hsplit : bestBlock s s [] =
      ((bestBlock s s []).1, (bestBlock s s []).2.1, (bestBlock s s []).2.2) := rfl
  rw [hsplit, e1, e2, e3]

theorem flm_self (s : List Char) : flm s s [] = (0, 0, s.length) := by
  simp only [flm, bestBlock_self s, extendLeft_nil, extendRight_nil]

theorem matchCount_nil (junk : List Char) : matchCount [] [] junk = 0 := by
  have hf : flm [] [] junk = (0, 0, 0) := rfl
  rw [matchCount]
  simp [hf]

theorem matchCount_self (s : List Char) : matchCount s s [] = s.length := by
  by_cases h0 : s.length = 0
  · have hs : s = [] := List.length_eq_zero.mp h0
    rw [hs]
    simp [matchCount_nil]
  · rw [matchCount]
    simp only [flm_self]
    rw [dif_neg (by simpa using h0)]
    simp [matchCount_nil]

theorem similarityScore_self (s : List Char) (h2 : s.length < 200) :
    similarityScore s s = 1 := by
  unfold similarityScore
  by_cases h0 : s.length + s.length = 0
  · rw [if_pos h0]
  · rw [if_neg h0]
    rw [popularJunk_eq_nil s h2, matchCount_self]
    have hn : (s.length : ℚ) ≠ 0 := by
      have hz : s.length ≠ 0 := by omega
      exact_mod_cast hz
    field_simp
    ring

theorem mem_skipWs {c : Char} {l : List Char} (hc : c ∈ skipWs l) : c ∈ l :=
  (List.dropWhile_sublist _).subset hc

theorem skipWs_head_mem {l : List Char} {c : Char}
    (h : (skipWs l).head? = some c) : c ∈ l := by
  cases hsw : skipWs l with
  | nil => rw [hsw] at h; cases h
  | cons x rest =>
      rw [hsw] at h
      have hx : x = c := by simpa using h
      exact mem_skipWs (hsw ▸ (hx ▸ List.mem_cons_self x rest))

theorem parseObjectWhole_eq_none {l : List Char} (h : '{' ∉ l) :
    parseObjectWhole l = none := by
  unfold parseObjectWhole
  rw [if_neg]
  intro habs
  exact h (skipWs_head_mem habs)

theorem mem_afterFirstSeq {pat : List Char} :
    ∀ {l r : List Char}, afterFirstSeq pat l = some r → ∀ {c}, c ∈ r → c ∈ l := by
  intro l
  induction l with
  | nil => intro r h; cases h
  | cons x rest ih =>
      intro r h c hc
      rw [afterFirstSeq] at h
      split at h
      · have hr : (x :: rest).drop pat.length = r := by simpa using h
        exact List.drop_subset _ _ (hr ▸ hc)
      · exact List.mem_cons_of_mem x (ih h hc)

theorem mem_beforeFirstSeq {pat : List Char} :
    ∀ {l : List Char} {c : Char}, c ∈ beforeFirstSeq pat l → c ∈ l := by
  intro l
  induction l with
  | nil => intro c hc; cases hc
  | cons x rest ih =>
      intro c hc
      rw [beforeFirstSeq] at hc
      split at hc
      · cases hc
      · rcases List.mem_cons.mp hc with rfl | hm
        · exact List.mem_cons_self c rest
        · exact List.mem_cons_of_mem x (ih hm)

theorem mem_fencedContent {l r : List Char} (h : fencedContent l = some r)
    {c : Char} (hc : c ∈ r) : c ∈ l := by
  unfold fencedContent at h
  cases ha : afterFirstSeq fenceMarker l with
  | none => rw [ha] at h; cases h
  | some r0 =>
      rw [ha] at h
      have hr : r = beforeFirstSeq fenceMarker
          (if ("json".data.isPrefixOf r0) then r0.drop 4 else r0) := by
        simpa using h.symm
      rw [hr] at hc
      have h1 := mem_beforeFirstSeq hc
      have h2 : c ∈ r0 := by
        by_cases hj : ("json".data.isPrefixOf r0)
        · rw [if_pos hj] at h1
          exact List.drop_subset _ _ h1
        · rw [if_neg hj] at h1
          exact h1
      exact mem_afterFirstSeq ha h2

theorem braceCandidates_eq_nil {l : List Char} (h : '{' ∉ l) :
    braceCandidates l = [] := by
  unfold braceCandidates
  rw [List.filterMap_eq_nil_iff]
  intro i _
  rw [if_neg]
  intro habs
  have hm : '{' ∈ l.drop i := by
    cases hd : (l.drop i) with
    | nil => rw [hd] at habs; cases habs
    | cons x rest =>
        rw [hd] at habs
        have hx : x = '{' := by simpa using habs
        subst hx
        exact List.mem_cons_self _ _
  exact h (List.drop_subset _ _ hm)

theorem sliceFirstLast_eq_none {l : List Char} (h : '{' ∉ l) :
    sliceFirstLast l = none := by
  unfold sliceFirstLast
  rw [if_neg]
  exact fun hcon => h hcon.1

/- ===================== Claim theorems ===================== -/

/-- Claim C1: the control loop's Iron Gate decides by exact boundaries: a
risk score of at least 90 blocks the action (it is never executed), a score
in 40..89 requires approval and is denied by default when no interactive
answer is available, and a score below 40 auto-approves; in particular 39
auto-approves, 40 and 89 require approval, and 90 blocks. -/
theorem claim_C1_iron_gate_boundaries (risk : Nat) (answer : Option String) :
    (risk ≥ 90 → ironGate risk = .block ∧ ironGateAllows risk answer = false) ∧
    (40 ≤ risk ∧ risk < 90 →
      ironGate risk = .requireApproval ∧ ironGateAllows risk none = false) ∧
    (risk < 40 → ironGate risk = .autoApprove ∧ ironGateAllows risk answer = true) ∧
    ironGate 39 = .autoApprove ∧ ironGate 40 = .requireApproval ∧
    ironGate 89 = .requireApproval ∧ ironGate 90 = .block := by
  refine ⟨?_, ?_, ?_, by decide, by decide, by decide, by decide⟩
  · intro h
    have hg : ironGate risk = .block := by unfold ironGate; rw [if_pos h]
    exact ⟨hg, by unfold ironGateAllows; rw [hg]⟩
  · intro h
    have hg : ironGate risk = .requireApproval := by
      unfold ironGate
      rw [if_neg (by omega), if_pos (by omega)]
    exact ⟨hg, by unfold ironGateAllows; rw [hg]; rfl⟩
  · intro h
    have hg : ironGate risk = .autoApprove := by
      unfold ironGate
      rw [if_neg (by omega), if_neg (by omega)]
    exact ⟨hg, by unfold ironGateAllows; rw [hg]⟩

/-- Witness for claim C1 at the boundary scores. -/
theorem claim_C1_witness :
    ironGate 90 = .block ∧ ironGateAllows 90 none = false ∧
    ironGateAllows 40 none = false ∧ ironGateAllows 39 none = true := by
  have h90 := (claim_C1_iron_gate_boundaries 90 none).1 (by omega)
  have h40 := (claim_C1_iron_gate_boundaries 40 none).2.1 (by omega)
  have h39 := (claim_C1_iron_gate_boundaries 39 none).2.2.1 (by omega)
  exact ⟨h90.1, h90.2, h40.2, h39.2⟩

/-- Claim C2: with the engine enabled, a type action on an element whose
declared type contains password scores exactly 100, regardless of every
other field of the action and element — the +20 long-value rule can push
the sum to 120, but the final cap brings it back to exactly 100. -/
theorem claim_C2_password_always_100 (se : SecurityEngine) (a : RiskAction)
    (u : String) (info : ElementInfo)
    (hen : se.enabled = true)
    (hact : pyLowerStr a.action = "type")
    (hpw : strContains (pyLowerStr info.typeAttr) "password" = true) :
    (calculate_risk se a u (some info)).1 = 100 := by
  by_cases hl : 100 < a.value.length <;>
    simp [calculate_risk, hen, hact, hpw, capRisk, hl]

/-- Witness for claim C2: the repository's own password test vector. -/
theorem claim_C2_witness :
    (defaultEngine.enabled = true ∧
      pyLowerStr "type" = "type" ∧
      strContains (pyLowerStr "password") "password" = true) ∧
    (calculate_risk defaultEngine { action := "type", value := "mypassword123" }
      "https://unknown.com"
      (some { tag := "input", typeAttr := "password", text := "", href := "" })).1 = 100 :=
  ⟨⟨rfl, by decide, by decide⟩,
   claim_C2_password_always_100 defaultEngine _ _ _ rfl (by decide) (by decide)⟩

/-- The capped score is never above 100. -/
theorem capRisk_le (r : Nat × List String) : (capRisk r).1 ≤ 100 :=
  Nat.min_le_right _ _

/-- Claim C3: calculate_risk is a pure function — equal inputs give equal
results — and its score is always within the integer range 0..100. -/
theorem claim_C3_risk_deterministic_bounded (se : SecurityEngine)
    (a : RiskAction) (u : String) (e : Option ElementInfo) :
    calculate_risk se a u e = calculate_risk se a u e ∧
    0 ≤ (calculate_risk se a u e).1 ∧ (calculate_risk se a u e).1 ≤ 100 := by
  refine ⟨rfl, Nat.zero_le _, ?_⟩
  by_cases hen : se.enabled
  case neg => simp [calculate_risk, hen]
  case pos =>
    by_cases hnav : pyLowerStr a.action = "navigate"
    · by_cases hval : a.value = ""
      · simp [calculate_risk, hen, hnav, hval]
      · simp [calculate_risk, hen, hnav, hval]
        try exact capRisk_le _
    · by_cases htyp : pyLowerStr a.action = "type"
      · rcases e with _ | info <;>
          (simp [calculate_risk, hen, hnav, htyp]; try exact capRisk_le _)
      · by_cases hclk : pyLowerStr a.action = "click"
        · rcases e with _ | info <;>
            (simp [calculate_risk, hen, hnav, htyp, hclk]; try exact capRisk_le _)
        · by_cases hsw : pyLowerStr a.action = "scroll" ∨ pyLowerStr a.action = "wait"
          · simp [calculate_risk, hen, hnav, htyp, hclk, hsw]
            try exact capRisk_le _
          · simp [calculate_risk, hen, hnav, htyp, hclk, hsw]
            try exact capRisk_le _

/-- Counterexample to claim C4: navigating to ftp://google.com — whose
domain google.com is in the default trust list — scores 30, not 0, because
the non-http(s) scheme adds 30 on top of the whitelisted 0. -/
theorem claim_C4_counterexample :
    is_whitelisted defaultEngine "ftp://google.com" = true ∧
    (calculate_risk defaultEngine
      { action := "navigate", value := "ftp://google.com" }
      "https://google.com" none).1 = 30 ∧ (30 : Nat) ≠ 0 :=
  ⟨by decide, by decide, by decide⟩

/-- Claim C4 (amended): with the engine enabled, a navigate action with a
non-empty URL scores 0 when the domain is trusted and the scheme is http or
https (30 when the domain is trusted but the scheme is neither), and scores
at least 50 whenever the domain is not in the trust list. -/
theorem claim_C4_amended_navigate_trust (se : SecurityEngine) (a : RiskAction)
    (u : String) (e : Option ElementInfo)
    (hen : se.enabled = true)
    (hact : pyLowerStr a.action = "navigate")
    (hval : a.value ≠ "") :
    (is_whitelisted se a.value = true →
      (calculate_risk se a u e).1 =
        (if (urlparse a.value).scheme = "http" ∨ (urlparse a.value).scheme = "https"
         then 0 else 30)) ∧
    (is_whitelisted se a.value = false → 50 ≤ (calculate_risk se a u e).1) := by
  constructor
  · intro hwl
    by_cases hsch : (urlparse a.value).scheme = "http" ∨
        (urlparse a.value).scheme = "https" <;>
      (simp [calculate_risk, hen, hact, hval, hwl, hsch, capRisk]; try omega)
  · intro hwl
    by_cases hsch : (urlparse a.value).scheme = "http" ∨
        (urlparse a.value).scheme = "https" <;>
      (simp [calculate_risk, hen, hact, hval, hwl, hsch, capRisk]; try omega)

/-- Witness for the amended claim C4 on concrete URLs: a trusted https URL
scores 0 and an untrusted https URL scores at least 50. -/
theorem claim_C4_witness :
    (calculate_risk defaultEngine
      { action := "navigate", value := "https://wikipedia.org" } "" none).1 = 0 ∧
    50 ≤ (calculate_risk defaultEngine
      { action := "navigate", value := "https://suspicious-site.xyz" } "" none).1 := by
  have h1 := ((claim_C4_amended_navigate_trust defaultEngine
    { action := "navigate", value := "https://wikipedia.org" } "" none
    rfl (by decide) (by decide)).1) (by decide)
  have h2 := ((claim_C4_amended_navigate_trust defaultEngine
    { action := "navigate", value := "https://suspicious-site.xyz" } "" none
    rfl (by decide) (by decide)).2) (by decide)
  refine ⟨?_, h2⟩
  rw [h1, if_pos (by decide)]

/-- Counterexample to claim C5: six successive blocked steps (for example
six type-into-password proposals, each scoring 100 and hence blocked) each
append to the history and continue the loop before the trim line is
reached, so the history grows to six records — more than the claimed bound
of 5. -/
theorem claim_C5_counterexample :
    (List.foldl (fun h r => historyUpdate .blockedStep h r) []
      [⟨1, "BLOCKED: type", "Security Block"⟩, ⟨2, "BLOCKED: type", "Security Block"⟩,
       ⟨3, "BLOCKED: type", "Security Block"⟩, ⟨4, "BLOCKED: type", "Security Block"⟩,
       ⟨5, "BLOCKED: type", "Security Block"⟩,
       ⟨6, "BLOCKED: type", "Security Block"⟩]).length = 6 ∧ ¬ (6 ≤ 5) :=
  ⟨rfl, by omega⟩

/-- Claim C5 (amended): every history update appends the new record at the
end; an update that follows an executed action then trims the history to
its most recent 5 records (a suffix of the appended list, so relative order
is preserved and however many oldest records exceed five are evicted),
keeping it at no more than 5; blocked, denied, visual-verification and done
updates append without trimming, so the 5-bound holds only across
executed-step updates — in particular 6 executed-step insertions into an
empty history leave exactly the last 5 in order, the first record
evicted. -/
theorem claim_C5_amended_bounded_fifo (h : List StepRecord)
    (r r1 r2 r3 r4 r5 r6 : StepRecord) :
    (historyUpdate .executedStep h r).length ≤ 5 ∧
    (historyUpdate .executedStep h r) <:+ (h ++ [r]) ∧
    historyUpdate .blockedStep h r = h ++ [r] ∧
    List.foldl (fun acc x => historyUpdate .executedStep acc x) []
      [r1, r2, r3, r4, r5, r6] = [r2, r3, r4, r5, r6] := by
  refine ⟨?_, ?_, rfl, by simp [historyUpdate]⟩
  · simp only [historyUpdate]
    split
    · next hgt => simp only [List.length_drop]; omega
    · next hle => omega
  · simp only [historyUpdate]
    split
    · exact List.drop_suffix _ _
    · exact List.suffix_refl _

/-- Claim C8: the Verify phase (modelled from the spec; the recording loop
of the mature agent variant is not under src/) records NO_EFFECT exactly
when both the URL and the visible-content hash are unchanged across the
action, and a content/URL-change success when either differs. -/
theorem claim_C8_verify_no_effect (pre post : PageFingerprint) :
    (pre.url = post.url ∧ pre.contentHash = post.contentHash →
      verifyStep pre post = .noEffect) ∧
    (pre.url ≠ post.url ∨ pre.contentHash ≠ post.contentHash →
      verifyStep pre post = .changedSuccess) := by
  constructor
  · intro h
    unfold verifyStep
    rw [if_pos h]
  · intro h
    unfold verifyStep
    rw [if_neg (by tauto)]

/-- Witness for claim C8 on concrete fingerprints. -/
theorem claim_C8_witness :
    verifyStep ⟨"https://a.test/x", "h1"⟩ ⟨"https://a.test/x", "h1"⟩ = .noEffect ∧
    verifyStep ⟨"https://a.test/x", "h1"⟩ ⟨"https://a.test/x", "h2"⟩ = .changedSuccess :=
  ⟨(claim_C8_verify_no_effect _ _).1 ⟨rfl, rfl⟩,
   (claim_C8_verify_no_effect _ _).2 (Or.inr (by decide))⟩

/-- Claim C10: get_simplified_state never raises to its caller — it is a
total function of the script outcome; a throwing extraction script yields
the explicit error string built from the exception text, an empty
extraction yields the explicit no-elements error string, and otherwise the
formatted element listing is returned. -/
theorem claim_C10_distiller_error_strings (r : Except String (List DistElem)) :
    (∀ e, r = .error e → get_simplified_state r = "Error: " ++ e) ∧
    (r = .ok [] → get_simplified_state r = "Error: No elements extracted") ∧
    (∀ els, r = .ok els → els ≠ [] →
      get_simplified_state r = format_elements els) := by
  refine ⟨?_, ?_, ?_⟩
  · intro e he
    rw [he]
    rfl
  · intro he
    rw [he]
    rfl
  · intro els he hne
    rw [he]
    simp [get_simplified_state, hne]

/-- Witness for claim C10 on a throwing script and an empty extraction. -/
theorem claim_C10_witness :
    get_simplified_state (.error "Page.evaluate: Execution context was destroyed") =
      "Error: Page.evaluate: Execution context was destroyed" ∧
    get_simplified_state (.ok []) = "Error: No elements extracted" :=
  ⟨(claim_C10_distiller_error_strings _).1 _ rfl,
   (claim_C10_distiller_error_strings _).2.1 rfl⟩

/-- Claim C9: for element actions (click, type, press_enter) the executor
fails with a structured no-target / invalid-target / element-not-found
message — returning a result directly, never dispatching an element
primitive — when the target id is absent, not convertible to an integer, or
not a key of the current map; non-element actions are dispatched without
requiring a target. -/
theorem claim_C9_executor_target_errors (a : BActionDict) (m : List Int) :
    (pyLowerStr a.action = "navigate" →
      execute_action a m = .dispatch (.navigateTo (pyOrStr a.url a.value))) ∧
    ((pyLowerStr a.action = "scroll" ∨ pyLowerStr a.action = "scroll_down") →
      execute_action a m = .dispatch (.scrollBy 500)) ∧
    (pyLowerStr a.action = "scroll_up" →
      execute_action a m = .dispatch (.scrollBy (-500))) ∧
    (pyLowerStr a.action = "wait" → execute_action a m = .dispatch .smartWait) ∧
    (pyLowerStr a.action = "done" →
      execute_action a m = .immediate true "GOAL_COMPLETE") ∧
    ((pyLowerStr a.action = "click" ∨ pyLowerStr a.action = "type" ∨
        pyLowerStr a.action = "press_enter") →
      (pyOrVal a.target_id a.idField = .pnone →
        execute_action a m = .immediate false "ERROR: No target_id provided") ∧
      (∀ s, pyOrVal a.target_id a.idField = .pstr s → pyStrToInt s = none →
        execute_action a m =
          .immediate false ("ERROR: Invalid target_id " ++ s)) ∧
      (∀ n, pyValToInt (pyOrVal a.target_id a.idField) = some n →
        m.contains n = false →
        execute_action a m =
          .immediate false ("ERROR: Element #" ++ toString n ++ " not found"))) := by
  refine ⟨?_, ?_, ?_, ?_, ?_, ?_⟩
  · intro h
    simp [execute_action, h]
  · rintro (h | h) <;> simp [execute_action, h]
  · intro h
    simp [execute_action, h]
  · intro h
    simp [execute_action, h]
  · intro h
    simp [execute_action, h]
  · intro h
    have hne : execute_action a m =
        (if pyOrVal a.target_id a.idField = .pnone then
          ExecOutcome.immediate false "ERROR: No target_id provided"
        else
          match pyValToInt (pyOrVal a.target_id a.idField) with
          | none => ExecOutcome.immediate false
              ("ERROR: Invalid target_id " ++ pyValStr (pyOrVal a.target_id a.idField))
          | some n =>
              if ¬ m.contains n then
                ExecOutcome.immediate false
                  ("ERROR: Element #" ++ toString n ++ " not found")
              else if pyLowerStr a.action = "click" then .dispatch (.clickElem n)
              else if pyLowerStr a.action = "type" then
                .dispatch (.fillElem n (pyOrStr a.text a.value))
              else if pyLowerStr a.action = "press_enter" then
                .dispatch (.pressEnterElem n)
              else .immediate false ("ERROR: Unknown action " ++ pyLowerStr a.action)) := by
      rcases h with h | h | h <;> simp [execute_action, h]
    refine ⟨?_, ?_, ?_⟩
    · intro hnone
      rw [hne, if_pos hnone]
    · intro s hs hconv
      rw [hne, if_neg (by rw [hs]; intro hcon; cases hcon)]
      rw [hs]
      simp [pyValToInt, hconv, pyValStr]
    · intro n hn hmem
      have hnn : pyOrVal a.target_id a.idField ≠ .pnone := by
        intro hcon
        rw [hcon] at hn
        cases hn
      have hcc : ¬ (m.contains n = true) := by
        rw [hmem]
        decide
      rw [hne, if_neg hnn]
      simp only [hn, if_pos hcc]

/-- Witness for claim C9: a missing target, a non-numeric target, an absent
map key, and a non-element action on concrete inputs. -/
theorem claim_C9_witness :
    execute_action { action := "click", target_id := .pnone, idField := .pnone, url := none, text := none, value := "" } [1, 2] =
      .immediate false "ERROR: No target_id provided" ∧
    execute_action { action := "click", target_id := .pstr "abc", idField := .pnone, url := none, text := none, value := "" } [1, 2] =
      .immediate false "ERROR: Invalid target_id abc" ∧
    execute_action { action := "click", target_id := .pint 7, idField := .pnone, url := none, text := none, value := "" } [1, 2] =
      .immediate false "ERROR: Element #7 not found" ∧
    execute_action { action := "wait", target_id := .pnone, idField := .pnone, url := none, text := none, value := "" } [] =
      .dispatch .smartWait := by
  refine ⟨?_, ?_, ?_, ?_⟩
  · exact ((claim_C9_executor_target_errors _ _).2.2.2.2.2 (Or.inl (by decide))).1
      (by decide)
  · exact ((claim_C9_executor_target_errors _ _).2.2.2.2.2 (Or.inl (by decide))).2.1
      "abc" (by decide) (by decide)
  · exact ((claim_C9_executor_target_errors _ _).2.2.2.2.2 (Or.inl (by decide))).2.2
      7 (by decide) (by decide)
  · exact (claim_C9_executor_target_errors _ _).2.2.2.1 (by decide)

/-- Claim C6: the control loop passes the same element_info text field as
both the visual and the DOM argument of detect_deceptive_ui, so for every
click with available element info (whose text the observation script caps
at 100 characters) the two compared strings are identical, the similarity
of a non-empty label with itself is 1 (and the empty-text bypass covers the
rest), and the refusal branch can never fire — the check always passes. -/
theorem claim_C6_click_visual_check_never_refuses (se : SecurityEngine)
    (info : ElementInfo) (h : info.text.length ≤ 100) :
    (clickVisualCheck se info).1 = true ∧
    (∀ s : List Char, s ≠ [] → s.length ≤ 100 → similarityScore s s = 1) := by
  refine ⟨?_, fun s _ h2 => similarityScore_self s (by omega)⟩
  unfold clickVisualCheck detect_deceptive_ui
  by_cases he : se.enabled
  · have hlen : (pyStrip (pyLower info.text.data)).length < 200 := by
      have h1 := pyStrip_length_le (pyLower info.text.data)
      have h2 := pyLower_length info.text.data
      have h3 : info.text.data.length = info.text.length := rfl
      omega
    by_cases hnil : pyStrip (pyLower info.text.data) = []
    · simp [he, hnil]
    · have hsim := similarityScore_self _ hlen
      simp [he, hnil, hsim, defaultThreshold]
      try norm_num
  · simp [he]

/-- Witness for claim C6 on a concrete 15-character label. -/
theorem claim_C6_witness :
    ("Confirm Payment" : String).length ≤ 100 ∧
    (clickVisualCheck defaultEngine
      { tag := "button", typeAttr := "submit", text := "Confirm Payment", href := "" }).1 = true :=
  ⟨by decide,
   (claim_C6_click_visual_check_never_refuses defaultEngine
     { tag := "button", typeAttr := "submit", text := "Confirm Payment", href := "" }
     (by decide)).1⟩

/-- Claim C7: for model replies that are prose with no braces, the Action
Parser (modelled from the spec; the mature agent variant holding it is not
under src/) returns the tagged FORMAT_ERROR result carrying no action — it
neither throws (it is a total function) nor substitutes another action. -/
theorem claim_C7_format_error_on_braceless_prose (raw : String)
    (h : ∀ c ∈ raw.data, c ≠ '{' ∧ c ≠ '}') :
    extract raw = (none, "FORMAT_ERROR") := by
  have hbl : '{' ∉ pyStrip raw.data := fun hm => ((h _ (mem_pyStrip hm)).1 rfl)
  have hf : (fencedContent (pyStrip raw.data)).bind parseObjectWhole = none := by
    cases hfc : fencedContent (pyStrip raw.data) with
    | none => rfl
    | some r =>
        have hr : '{' ∉ r := fun hm => hbl (mem_fencedContent hfc hm)
        simp [parseObjectWhole_eq_none hr]
  simp [extract, parseObjectWhole_eq_none hbl, hf, braceCandidates_eq_nil hbl,
    sliceFirstLast_eq_none hbl]

/-- Witness for claim C7: the repository's own non-JSON test reply. -/
theorem claim_C7_witness :
    (∀ c ∈ ("I am confused" : String).data, c ≠ '{' ∧ c ≠ '}') ∧
    extract "I am confused" = (none, "FORMAT_ERROR") :=
  ⟨by decide, claim_C7_format_error_on_braceless_prose "I am confused" (by decide)⟩
